import Mathlib

/-!
# Verification of the ARL C-wrapper FFI boundary (arlwrap.h)

The repository fragment is a single C header, `examples/ffi_demo/include/arlwrap.h`,
declaring the data-exchange contract between a calling program and the external
ARL imaging library.  We embed the header's declarations (struct layouts and
function prototypes) as Lean data, and model the behaviour the spec attributes
to the externally implemented operations (copying, shape inference, lifecycle,
conversions, frame conditions) as explicit Lean functions over a simple memory
and value model.  The header contains no function bodies, so every behavioural
definition is marked `Modelled from the spec:`.
-/

namespace ArlWrap

/-- C types appearing in arlwrap.h, as declared. -/
inductive CType where
  | void
  | size_t
  | cInt
  | cBool
  | cDouble
  | cFloat
  | cFloatComplex
  | cLongLong
  | cChar
  | ptr (t : CType)
  | constPtr (t : CType)
  | carray (t : CType) (n : Nat)
  | named (s : String)
  deriving DecidableEq, Repr

/-- A field of a C struct declaration: name and declared type. -/
structure CField where
  name : String
  type : CType
  deriving DecidableEq, Repr

/-- A C struct declaration: typedef name and ordered field list. -/
structure CStruct where
  sname : String
  fields : List CField
  deriving DecidableEq, Repr

/-- A declared C function prototype: name, return type, parameter types. -/
structure CFun where
  fname : String
  ret : CType
  params : List CType
  deriving DecidableEq, Repr

/-- The `ARLVis` struct exactly as declared in arlwrap.h (lines 14-22). -/
def ARLVis_decl : CStruct :=
  ⟨"ARLVis",
   [⟨"nvis", .size_t⟩,
    ⟨"npol", .cInt⟩,
    ⟨"data", .ptr .void⟩,
    ⟨"phasecentre", .ptr .cChar⟩]⟩

/-- The `ARLVisEntryP4` struct exactly as declared in arlwrap.h (lines 28-39). -/
def ARLVisEntryP4_decl : CStruct :=
  ⟨"ARLVisEntryP4",
   [⟨"uvw", .carray .cDouble 3⟩,
    ⟨"time", .cDouble⟩,
    ⟨"freq", .cDouble⟩,
    ⟨"bw", .cDouble⟩,
    ⟨"intgt", .cDouble⟩,
    ⟨"a1", .cInt⟩,
    ⟨"a2", .cInt⟩,
    ⟨"vis", .carray .cFloatComplex 4⟩,
    ⟨"wght", .carray .cFloat 4⟩,
    ⟨"imgwght", .carray .cFloat 4⟩]⟩

/-- The `Image` struct exactly as declared in arlwrap.h. -/
def Image_decl : CStruct :=
  ⟨"Image",
   [⟨"size", .size_t⟩,
    ⟨"data_shape", .carray .cInt 4⟩,
    ⟨"data", .ptr .void⟩,
    ⟨"wcs", .ptr .cChar⟩,
    ⟨"polarisation_frame", .ptr .cChar⟩]⟩

/-- The `ARLConf` struct exactly as declared in arlwrap.h. -/
def ARLConf_decl : CStruct :=
  ⟨"ARLConf",
   [⟨"confname", .ptr .cChar⟩,
    ⟨"pc_ra", .cDouble⟩,
    ⟨"pc_dec", .cDouble⟩,
    ⟨"times", .ptr .cDouble⟩,
    ⟨"ntimes", .cInt⟩,
    ⟨"freqs", .ptr .cDouble⟩,
    ⟨"nfreqs", .cInt⟩,
    ⟨"channel_bandwidth", .ptr .cDouble⟩,
    ⟨"nchanwidth", .cInt⟩,
    ⟨"nbases", .cInt⟩,
    ⟨"nant", .cInt⟩,
    ⟨"npol", .cInt⟩,
    ⟨"rmax", .cDouble⟩]⟩

/-- The `ant_t` struct exactly as declared in arlwrap.h. -/
def ant_t_decl : CStruct :=
  ⟨"ant_t", [⟨"nant", .cInt⟩, ⟨"nbases", .cInt⟩]⟩

/-- The `ARLadvice` struct exactly as declared in arlwrap.h. -/
def ARLadvice_decl : CStruct :=
  ⟨"ARLadvice",
   [⟨"vis_slices", .cInt⟩,
    ⟨"npixel", .cInt⟩,
    ⟨"cellsize", .cDouble⟩,
    ⟨"guard_band_image", .cDouble⟩,
    ⟨"delA", .cDouble⟩,
    ⟨"wprojection_planes", .cInt⟩]⟩

/-- All structs declared by arlwrap.h, in declaration order. -/
def headerStructs : List CStruct :=
  [ARLVis_decl, ARLVisEntryP4_decl, Image_decl, ARLConf_decl, ant_t_decl, ARLadvice_decl]

/-- Every function prototype declared by arlwrap.h, with its declared
return type and parameter types, in declaration order. -/
def headerFuns : List CFun :=
  [⟨"arl_copy_visibility", .void,
     [.constPtr (.named "ARLVis"), .ptr (.named "ARLVis"), .cBool]⟩,
   ⟨"helper_get_image_shape", .void,
     [.constPtr .cDouble, .cDouble, .ptr .cInt]⟩,
   ⟨"helper_get_image_shape_multifreq", .void,
     [.ptr (.named "ARLConf"), .cDouble, .cInt, .ptr .cInt]⟩,
   ⟨"helper_get_nbases", .void,
     [.ptr .cChar, .ptr (.named "ant_t")]⟩,
   ⟨"helper_set_image_params", .void,
     [.constPtr (.named "ARLVis"), .ptr (.named "Image")]⟩,
   ⟨"arl_create_visibility", .void,
     [.ptr (.named "ARLConf"), .ptr (.named "ARLVis")]⟩,
   ⟨"arl_create_blockvisibility", .void,
     [.ptr (.named "ARLConf"), .ptr (.named "ARLVis")]⟩,
   ⟨"arl_advise_wide_field", .void,
     [.ptr (.named "ARLConf"), .ptr (.named "ARLVis"), .ptr (.named "ARLadvice")]⟩,
   ⟨"arl_create_test_image", .void,
     [.constPtr .cDouble, .cDouble, .ptr .cChar, .ptr (.named "Image")]⟩,
   ⟨"arl_create_low_test_image_from_gleam", .void,
     [.ptr (.named "ARLConf"), .cDouble, .cInt, .ptr .cChar, .ptr (.named "Image")]⟩,
   ⟨"arl_predict_2d", .void,
     [.constPtr (.named "ARLVis"), .constPtr (.named "Image"), .ptr (.named "ARLVis")]⟩,
   ⟨"arl_invert_2d", .void,
     [.constPtr (.named "ARLVis"), .constPtr (.named "Image"), .cBool,
      .ptr (.named "Image"), .ptr .cDouble]⟩,
   ⟨"arl_create_image_from_visibility", .void,
     [.constPtr (.named "ARLVis"), .ptr (.named "Image")]⟩,
   ⟨"arl_deconvolve_cube", .void,
     [.ptr (.named "Image"), .ptr (.named "Image"), .ptr (.named "Image"),
      .ptr (.named "Image")]⟩,
   ⟨"arl_restore_cube", .void,
     [.ptr (.named "Image"), .ptr (.named "Image"), .ptr (.named "Image"),
      .ptr (.named "Image")]⟩,
   ⟨"arl_predict_function", .void,
     [.ptr (.named "ARLConf"), .constPtr (.named "ARLVis"), .constPtr (.named "Image"),
      .ptr (.named "ARLVis"), .ptr (.named "ARLVis"), .ptr .cLongLong]⟩,
   ⟨"arl_convert_visibility_to_blockvisibility", .void,
     [.ptr (.named "ARLConf"), .constPtr (.named "ARLVis"), .constPtr (.named "ARLVis"),
      .ptr .cLongLong, .ptr (.named "ARLVis")]⟩,
   ⟨"arl_predict_function_blockvis", .void,
     [.ptr (.named "ARLConf"), .ptr (.named "ARLVis"), .constPtr (.named "Image")]⟩,
   ⟨"arl_initialize", .void, []⟩,
   ⟨"arl_finalize", .void, []⟩]

/-- Field names that would denote an error-code or status output field.
No struct in the header uses any of these. -/
def statusFieldNames : List String :=
  ["status", "error", "err", "errcode", "error_code", "errno", "rc", "retcode", "retval"]

end ArlWrap

namespace ArlWrap

/-- Layout of the `data` buffer of an `ARLVis`, per the comment at
arlwrap.h lines 17-20 and 24-27: for a polarization count `p` the buffer
is a by-value array of `nvis` per-sample entry records with `p`
polarization slots (for `p = 4` that record type is `ARLVisEntryP4`). -/
inductive DataLayout where
  | entriesByValue (pol : Nat) (count : Nat)
  deriving DecidableEq, Repr

/-- Interpretation of the opaque `data` pointer as a function of the
polarization count alone: defined for npol 1, 2 and 4 (the counts the
header's comments name), undefined otherwise. -/
def layoutOfNpol (npol : Int) (nvis : Nat) : Option DataLayout :=
  if npol = 1 then some (.entriesByValue 1 nvis)
  else if npol = 2 then some (.entriesByValue 2 nvis)
  else if npol = 4 then some (.entriesByValue 4 nvis)
  else none

/-- Value-level model of an `ARLVis` container (4-polarization case for
the data array, the one the header lays out): sample count, polarization
count, the referenced per-sample array, and the phase-centre descriptor. -/
structure ARLVisVal (α : Type) where
  nvis : Nat
  npol : Int
  data : List α
  phasecentre : String
  deriving DecidableEq, Repr

/-- How a container's data buffer is interpreted: it reads only the
`npol` and `nvis` fields of the container (no other field is consulted). -/
def dataInterp {α : Type} (v : ARLVisVal α) : Option DataLayout :=
  layoutOfNpol v.npol v.nvis

end ArlWrap

namespace ArlWrap

/-- C1: every function prototype declared in arlwrap.h has declared return
type `void`, and no field of any declared struct (ARLVis, ARLVisEntryP4,
Image, ARLConf, ant_t, ARLadvice) is an error-code or status field. -/
theorem c1_void_returns_no_status_fields :
    (∀ f ∈ headerFuns, f.ret = CType.void) ∧
    (∀ s ∈ headerStructs, ∀ fld ∈ s.fields, fld.name ∉ statusFieldNames) := by
  decide

/-- C2: the 4-polarization per-sample record `ARLVisEntryP4` consists
exactly, in order, of a 3-element double baseline coordinate `uvw`, a
double timestamp, a double frequency, a double bandwidth, a double
integration time, two int antenna indices, 4 complex visibility values,
4 float weights and 4 float image-weights; and the `ARLVis` data buffer
for npol = 4 is interpreted as a by-value array of `nvis` such records
(embedded, with no independent lifecycle). -/
theorem c2_entry_p4_layout (nvis : Nat) :
    ARLVisEntryP4_decl.fields =
      [⟨"uvw", .carray .cDouble 3⟩,
       ⟨"time", .cDouble⟩,
       ⟨"freq", .cDouble⟩,
       ⟨"bw", .cDouble⟩,
       ⟨"intgt", .cDouble⟩,
       ⟨"a1", .cInt⟩,
       ⟨"a2", .cInt⟩,
       ⟨"vis", .carray .cFloatComplex 4⟩,
       ⟨"wght", .carray .cFloat 4⟩,
       ⟨"imgwght", .carray .cFloat 4⟩] ∧
    layoutOfNpol 4 nvis = some (.entriesByValue 4 nvis) := by
  exact ⟨rfl, rfl⟩

/-- C8: the `ARLVis` container has exactly the fields nvis, npol, data,
phasecentre (so no field beyond `npol` records the layout of the data
array); the interpretation of the data pointer is a function of the
polarization count alone — any two containers agreeing on `npol` (and
the sample count that scales the array) get the same interpretation —
and it is defined exactly for npol 1, 2 and 4. -/
theorem c8_npol_is_only_type_tag :
    (ARLVis_decl.fields.map CField.name = ["nvis", "npol", "data", "phasecentre"]) ∧
    (∀ (v w : ARLVisVal Int), v.npol = w.npol → v.nvis = w.nvis →
      dataInterp v = dataInterp w) ∧
    (∀ npol : Int, ∀ nvis : Nat,
      (layoutOfNpol npol nvis).isSome ↔ (npol = 1 ∨ npol = 2 ∨ npol = 4)) := by
  refine ⟨rfl, ?_, ?_⟩
  · intro v w hpol hvis
    simp [dataInterp, hpol, hvis]
  · intro npol nvis
    by_cases h1 : npol = 1 <;> by_cases h2 : npol = 2 <;> by_cases h4 : npol = 4 <;>
      simp [layoutOfNpol, h1, h2, h4]

/-- Witness for C8 at concrete containers agreeing on npol and nvis. -/
theorem c8_npol_is_only_type_tag_witness :
    dataInterp (⟨3, 4, [0, 1, 2], "pc1"⟩ : ARLVisVal Int) =
      dataInterp (⟨3, 4, [5, 6, 7], "pc2"⟩ : ARLVisVal Int) :=
  c8_npol_is_only_type_tag.2.1 ⟨3, 4, [0, 1, 2], "pc1"⟩ ⟨3, 4, [5, 6, 7], "pc2"⟩ rfl rfl

end ArlWrap

namespace ArlWrap

/-- A value-level `ARLVisEntryP4` record.  The copy and conversion
operations the spec describes move field values verbatim and never do
arithmetic on them, so the numeric carrier is immaterial to those claims;
we use `Int` for the real-valued fields and `Int × Int` for the complex
visibility values.  Field names and order follow the struct declaration. -/
structure VisEntryP4 where
  uvw : List Int
  time : Int
  freq : Int
  bw : Int
  intgt : Int
  a1 : Int
  a2 : Int
  vis : List (Int × Int)
  wght : List Int
  imgwght : List Int
  deriving DecidableEq, Repr

/-- Modelled from the spec: the zeroing applied by `arl_copy_visibility`
with `zero=true` — "a per-sample array populated with all-zero numeric
fields (baselines, time, frequency, visibilities, weights)".  The fields
the spec enumerates are zeroed; the record shape is unchanged. -/
def zeroEntry (e : VisEntryP4) : VisEntryP4 :=
  { e with
    uvw := e.uvw.map (fun _ => 0),
    time := 0,
    freq := 0,
    vis := e.vis.map (fun _ => (0, 0)),
    wght := e.wght.map (fun _ => 0),
    imgwght := e.imgwght.map (fun _ => 0) }

/-- Modelled from the spec: `arl_copy_visibility` (declared but not
implemented in this repository).  It fills the output container from
`visin`: with `zero = false` the output's sample count, polarization
count and per-sample array equal the input's byte for byte; with
`zero = true` the counts still match but every entry of the per-sample
array has its numeric fields zeroed. -/
def arl_copy_visibility (visin : ARLVisVal VisEntryP4) (zero : Bool) :
    ARLVisVal VisEntryP4 :=
  if zero then { visin with data := visin.data.map zeroEntry } else visin

/-- C3: `arl_copy_visibility` with `zero=false` yields an output whose
sample count `nvis` and polarization count `npol` equal the input's and
whose per-sample data array is identical to the input's. -/
theorem c3_copy_no_zero_identical (visin : ARLVisVal VisEntryP4) :
    (arl_copy_visibility visin false).nvis = visin.nvis ∧
    (arl_copy_visibility visin false).npol = visin.npol ∧
    (arl_copy_visibility visin false).data = visin.data := by
  refine ⟨rfl, rfl, rfl⟩

/-- C4: `arl_copy_visibility` with `zero=true` yields an output whose
sample and polarization counts match the input's, and every entry of
whose per-sample array has zero baseline coordinates, time, frequency,
visibility values and (image-)weights. -/
theorem c4_copy_zero_zeroes_fields (visin : ARLVisVal VisEntryP4) :
    (arl_copy_visibility visin true).nvis = visin.nvis ∧
    (arl_copy_visibility visin true).npol = visin.npol ∧
    ∀ e ∈ (arl_copy_visibility visin true).data,
      (∀ x ∈ e.uvw, x = 0) ∧ e.time = 0 ∧ e.freq = 0 ∧
      (∀ z ∈ e.vis, z = (0, 0)) ∧ (∀ x ∈ e.wght, x = 0) ∧
      (∀ x ∈ e.imgwght, x = 0) := by
  refine ⟨rfl, rfl, ?_⟩
  intro e he
  have hd : (arl_copy_visibility visin true).data = visin.data.map zeroEntry := rfl
  rw [hd, List.mem_map] at he
  obtain ⟨e0, _, rfl⟩ := he
  refine ⟨?_, rfl, rfl, ?_, ?_, ?_⟩ <;>
    · intro x hx
      simp only [zeroEntry, List.mem_map] at hx
      obtain ⟨y, _, rfl⟩ := hx
      rfl

end ArlWrap

namespace ArlWrap

/-- The two states of the library lifecycle the spec describes. -/
inductive LibState where
  | uninit
  | inited
  deriving DecidableEq, Repr

/-- The calls declared by arlwrap.h, one constructor per prototype
(`init` stands for the declared initialisation call, `finalize` for
`arl_finalize`). -/
inductive ArlCall where
  | init
  | finalize
  | copy_visibility
  | get_image_shape
  | get_image_shape_multifreq
  | get_nbases
  | set_image_params
  | create_visibility
  | create_blockvisibility
  | advise_wide_field
  | create_test_image
  | create_low_test_image_from_gleam
  | predict_2d
  | invert_2d
  | create_image_from_visibility
  | deconvolve_cube
  | restore_cube
  | predict_function
  | convert_visibility_to_blockvisibility
  | predict_function_blockvis
  deriving DecidableEq, Repr

/-- The data-exchange operations: every declared call except the
lifecycle pair. -/
def isDataExchange : ArlCall → Bool
  | .init => false
  | .finalize => false
  | _ => true

/-- Modelled from the spec: the two-state lifecycle transition function —
the initialisation call moves the library to Initialized, `arl_finalize`
moves it back to Uninitialized, and data-exchange calls do not change the
lifecycle state. -/
def lifeStep : LibState → ArlCall → LibState
  | _, .init => .inited
  | _, .finalize => .uninit
  | s, _ => s

/-- Modelled from the spec: when a call is valid — every data-exchange
operation is valid only in the Initialized state (a caller obligation,
not enforced by any visible mechanism); the initialisation call is for
the Uninitialized state and `arl_finalize` for the Initialized state. -/
def validCall : LibState → ArlCall → Bool
  | s, .init => s = .uninit
  | s, .finalize => s = .inited
  | s, _ => s = .inited

/-- C7: the lifecycle is a two-state machine: the initialisation call
takes Uninitialized to Initialized, `arl_finalize` takes Initialized back
to Uninitialized, and a data-exchange operation is valid in a state
exactly when that state is Initialized. -/
theorem c7_two_state_lifecycle :
    lifeStep .uninit .init = .inited ∧
    lifeStep .inited .finalize = .uninit ∧
    ∀ c : ArlCall, isDataExchange c = true →
      ∀ s : LibState, validCall s c = true ↔ s = .inited := by
  refine ⟨rfl, rfl, ?_⟩
  intro c hc s
  cases s <;> cases c <;> simp_all [validCall, isDataExchange]

/-- Witness for C7: `arl_predict_2d` is a data-exchange call and is valid
in the Initialized state. -/
theorem c7_two_state_lifecycle_witness :
    validCall .inited .predict_2d = true :=
  (c7_two_state_lifecycle.2.2 .predict_2d rfl .inited).mpr rfl

end ArlWrap

namespace ArlWrap

/-- Program memory, modelled as cells of an abstract numeric carrier
indexed by address.  Pointer parameters of the C prototypes become base
addresses into this memory. -/
def Mem : Type := Nat → Int

/-- Write one cell. -/
def writeCell (m : Mem) (a : Nat) (v : Int) : Mem :=
  fun x => if x = a then v else m x

/-- Write a list of values at consecutive addresses starting at `base`. -/
def writeListAt (m : Mem) (base : Nat) : List Int → Mem
  | [] => m
  | v :: vs => writeListAt (writeCell m base v) (base + 1) vs

/-- Read `n` cells at consecutive addresses starting at `base`. -/
def readListAt (m : Mem) (base : Nat) : Nat → List Int
  | 0 => []
  | n + 1 => m base :: readListAt m (base + 1) n

/-- Cells below the written region are untouched by `writeListAt`. -/
theorem writeListAt_low (vs : List Int) :
    ∀ (m : Mem) (base a : Nat), a < base → writeListAt m base vs a = m a := by
  induction vs with
  | nil => intro m base a _; rfl
  | cons v vs ih =>
      intro m base a ha
      have h1 : a < base + 1 := Nat.lt_succ_of_lt ha
      have h2 := ih (writeCell m base v) (base + 1) a h1
      have h3 : writeCell m base v a = m a := by
        simp [writeCell, Nat.ne_of_lt ha]
      simpa [writeListAt, h3] using h2

/-- Cells at or above `base + vs.length` are untouched by `writeListAt`. -/
theorem writeListAt_high (vs : List Int) :
    ∀ (m : Mem) (base a : Nat), base + vs.length ≤ a → writeListAt m base vs a = m a := by
  induction vs with
  | nil => intro m base a _; rfl
  | cons v vs ih =>
      intro m base a ha
      have h1 : base + 1 + vs.length ≤ a := by
        simpa [Nat.add_assoc, Nat.add_comm 1 vs.length] using ha
      have h2 := ih (writeCell m base v) (base + 1) a h1
      have hne : a ≠ base := by
        intro h
        subst h
        exact absurd ha (by simp [Nat.add_comm])
      have h3 : writeCell m base v a = m a := by simp [writeCell, hne]
      simpa [writeListAt, h3] using h2

/-- Reading back the region just written returns the written values. -/
theorem readListAt_writeListAt (vs : List Int) :
    ∀ (m : Mem) (base : Nat), readListAt (writeListAt m base vs) base vs.length = vs := by
  induction vs with
  | nil => intro m base; rfl
  | cons v vs ih =>
      intro m base
      have hcell : writeListAt (writeCell m base v) (base + 1) vs base = v := by
        have := writeListAt_low vs (writeCell m base v) (base + 1) base (Nat.lt_succ_self base)
        simpa [writeCell] using this
      simp [readListAt, writeListAt, hcell, ih (writeCell m base v) (base + 1)]

/-- Modelled from the spec: the shape computation behind
`helper_get_image_shape` — "given frequency samples and a cell size,
compute an image shape vector".  The numerical rule is internal to the
external library and unspecified; it is modelled as a concrete
deterministic 4-element function of exactly those inputs. -/
def shapeFun (freqs : List Int) (cellsize : Int) : List Int :=
  [Int.ofNat freqs.length, 1, 512 + cellsize % 2, 512 + cellsize % 2]

/-- Modelled from the spec: the shape computation behind
`helper_get_image_shape_multifreq`, which additionally takes the
configuration's frequency list length and a pixel count. -/
def shapeFunMultifreq (freqs : List Int) (cellsize : Int) (npixel : Int) : List Int :=
  [Int.ofNat freqs.length, 1, npixel + cellsize % 2, npixel + cellsize % 2]

/-- Modelled from the spec: the memory effect of `helper_get_image_shape`:
it reads the `nfreq` frequency cells at `freqPtr`, computes the shape
vector and writes its 4 elements at `shapePtr`; no other cell changes. -/
def helper_get_image_shape (freqPtr nfreq : Nat) (cellsize : Int) (shapePtr : Nat)
    (m : Mem) : Mem :=
  writeListAt m shapePtr (shapeFun (readListAt m freqPtr nfreq) cellsize)

/-- Modelled from the spec: the memory effect of
`helper_get_image_shape_multifreq`: it reads the configuration's `nfreqs`
frequency cells at `freqsPtr`, computes the shape vector from them, the
cell size and the pixel count, and writes its 4 elements at `shapePtr`;
no other cell changes. -/
def helper_get_image_shape_multifreq (freqsPtr nfreqs : Nat) (cellsize npixel : Int)
    (shapePtr : Nat) (m : Mem) : Mem :=
  writeListAt m shapePtr (shapeFunMultifreq (readListAt m freqsPtr nfreqs) cellsize npixel)

/-- The shape vector always has 4 elements. -/
theorem shapeFun_length (freqs : List Int) (cellsize : Int) :
    (shapeFun freqs cellsize).length = 4 := rfl

/-- The multifrequency shape vector always has 4 elements. -/
theorem shapeFunMultifreq_length (freqs : List Int) (cellsize npixel : Int) :
    (shapeFunMultifreq freqs cellsize npixel).length = 4 := rfl

/-- C5: `helper_get_image_shape` is deterministic — two calls whose
frequency-array contents and cell size agree write identical 4-element
shape vectors to their outputs, whatever the rest of memory holds and
wherever the arrays live. -/
theorem c5_get_image_shape_deterministic
    (m1 m2 : Mem) (p1 p2 n s1 s2 : Nat) (cs : Int)
    (hfreq : readListAt m1 p1 n = readListAt m2 p2 n) :
    readListAt (helper_get_image_shape p1 n cs s1 m1) s1 4 =
      readListAt (helper_get_image_shape p2 n cs s2 m2) s2 4 := by
  have h1 : readListAt (helper_get_image_shape p1 n cs s1 m1) s1 4 =
      shapeFun (readListAt m1 p1 n) cs := by
    have := readListAt_writeListAt (shapeFun (readListAt m1 p1 n) cs) m1 s1
    simpa [helper_get_image_shape, shapeFun_length] using this
  have h2 : readListAt (helper_get_image_shape p2 n cs s2 m2) s2 4 =
      shapeFun (readListAt m2 p2 n) cs := by
    have := readListAt_writeListAt (shapeFun (readListAt m2 p2 n) cs) m2 s2
    simpa [helper_get_image_shape, shapeFun_length] using this
  simp [h1, h2, hfreq]

/-- Witness for C5: two calls on different memories and at different
addresses, whose two frequency cells hold the same values, write the same
shape vector. -/
theorem c5_get_image_shape_deterministic_witness :
    readListAt (helper_get_image_shape 0 2 6 10 (fun _ => 3) ) 10 4 =
      readListAt (helper_get_image_shape 20 2 6 30 (fun a => if a < 100 then 3 else 7)) 30 4 :=
  c5_get_image_shape_deterministic (fun _ => 3) (fun a => if a < 100 then 3 else 7)
    0 20 2 10 30 6 (by decide)

/-- The number of cells read is the requested count. -/
theorem readListAt_length (m : Mem) : ∀ (n base : Nat), (readListAt m base n).length = n := by
  intro n
  induction n with
  | zero => intro base; rfl
  | succ k ih => intro base; simp [readListAt, ih (base + 1)]

/-- C9: the shape-inference helpers have no side effect beyond writing
the 4-cell output shape vector: every memory cell outside that region —
the frequency array (and, for the multifrequency variant, the
configuration arrays) and all other program state — is unchanged by the
call. -/
theorem c9_shape_helpers_frame :
    (∀ (freqPtr nfreq : Nat) (cs : Int) (shapePtr : Nat) (m : Mem) (a : Nat),
      a < shapePtr ∨ shapePtr + 4 ≤ a →
      helper_get_image_shape freqPtr nfreq cs shapePtr m a = m a) ∧
    (∀ (freqsPtr nfreqs : Nat) (cs npixel : Int) (shapePtr : Nat) (m : Mem) (a : Nat),
      a < shapePtr ∨ shapePtr + 4 ≤ a →
      helper_get_image_shape_multifreq freqsPtr nfreqs cs npixel shapePtr m a = m a) := by
  constructor
  · intro freqPtr nfreq cs shapePtr m a h
    rcases h with h | h
    · exact writeListAt_low _ m shapePtr a h
    · exact writeListAt_high _ m shapePtr a h
  · intro freqsPtr nfreqs cs npixel shapePtr m a h
    rcases h with h | h
    · exact writeListAt_low _ m shapePtr a h
    · exact writeListAt_high _ m shapePtr a h

/-- Witness for C9: a cell below the shape region keeps its value across
`helper_get_image_shape`, and one above across the multifrequency
variant, on concrete memories. -/
theorem c9_shape_helpers_frame_witness :
    helper_get_image_shape 0 2 6 10 (fun _ => 5) 3 = 5 ∧
    helper_get_image_shape_multifreq 0 2 6 256 10 (fun _ => 5) 14 = 5 :=
  ⟨c9_shape_helpers_frame.1 0 2 6 10 (fun _ => 5) 3 (Or.inl (by decide)),
   c9_shape_helpers_frame.2 0 2 6 256 10 (fun _ => 5) 14 (Or.inr (by decide))⟩

/-- Modelled from the spec: the visibility prediction behind
`arl_predict_2d` — the image-to-visibility transform itself is external
and unspecified; it is modelled as a concrete function of the input
visibility data and image data, producing one output value per input
sample. -/
def predictFun (vin img : List Int) : List Int :=
  vin.map (fun v => v + img.foldr (fun x y => x + y) 0)

/-- Modelled from the spec: the dirty-image/PSF computation behind
`arl_invert_2d` — external, modelled as a concrete function producing one
output value per template-image cell. -/
def invertFun (vin img : List Int) (dopsf : Bool) : List Int :=
  img.map (fun p => p + (if dopsf then 1 else 0) + vin.foldr (fun x y => x + y) 0)

/-- Modelled from the spec: the accumulated sum-of-weights written by
`arl_invert_2d`, one value per polarization/channel slot. -/
def sumwtFun (vin : List Int) (nslots : Nat) : List Int :=
  List.replicate nslots (vin.foldr (fun x y => x + y) 0)

/-- Modelled from the spec: the memory effect of `arl_predict_2d`: it
reads the input visibility data (`visinLen` cells at `visinPtr`) and the
image data (`imgLen` cells at `imgPtr`) and writes the predicted
visibility data — `visinLen` cells — at `visoutPtr`; the const-qualified
inputs and all other memory are untouched. -/
def arl_predict_2d (visinPtr visinLen imgPtr imgLen visoutPtr : Nat) (m : Mem) : Mem :=
  writeListAt m visoutPtr
    (predictFun (readListAt m visinPtr visinLen) (readListAt m imgPtr imgLen))

/-- Modelled from the spec: the memory effect of `arl_invert_2d`: it
reads the input visibility data and the template image data and writes
the result image (`imgLen` cells at `outPtr`) and the sum-of-weights
(`sumwtLen` cells at `sumwtPtr`); the const-qualified inputs and all
other memory are untouched. -/
def arl_invert_2d (visinPtr visinLen imgPtr imgLen : Nat) (dopsf : Bool)
    (outPtr sumwtPtr sumwtLen : Nat) (m : Mem) : Mem :=
  writeListAt
    (writeListAt m outPtr
      (invertFun (readListAt m visinPtr visinLen) (readListAt m imgPtr imgLen) dopsf))
    sumwtPtr
    (sumwtFun (readListAt m visinPtr visinLen) sumwtLen)

/-- C10: at the declared interface both inputs of `arl_predict_2d` and
`arl_invert_2d` are const-qualified pointers, and in the modelled
semantics each call changes no memory cell outside its output regions:
`arl_predict_2d` writes only the `visinLen` cells of `visout`, and
`arl_invert_2d` writes only the `imgLen` cells of `out` and the
`sumwtLen` cells of `sumwt` — in particular the input visibility set and
the input image are left unchanged. -/
theorem c10_predict_invert_frame :
    ((headerFuns.find? (fun f => f.fname = "arl_predict_2d")).map CFun.params =
      some [.constPtr (.named "ARLVis"), .constPtr (.named "Image"), .ptr (.named "ARLVis")]) ∧
    ((headerFuns.find? (fun f => f.fname = "arl_invert_2d")).map CFun.params =
      some [.constPtr (.named "ARLVis"), .constPtr (.named "Image"), .cBool,
            .ptr (.named "Image"), .ptr .cDouble]) ∧
    (∀ (visinPtr visinLen imgPtr imgLen visoutPtr : Nat) (m : Mem) (a : Nat),
      a < visoutPtr ∨ visoutPtr + visinLen ≤ a →
      arl_predict_2d visinPtr visinLen imgPtr imgLen visoutPtr m a = m a) ∧
    (∀ (visinPtr visinLen imgPtr imgLen : Nat) (dopsf : Bool)
       (outPtr sumwtPtr sumwtLen : Nat) (m : Mem) (a : Nat),
      (a < outPtr ∨ outPtr + imgLen ≤ a) →
      (a < sumwtPtr ∨ sumwtPtr + sumwtLen ≤ a) →
      arl_invert_2d visinPtr visinLen imgPtr imgLen dopsf outPtr sumwtPtr sumwtLen m a
        = m a) := by
  refine ⟨by decide, by decide, ?_, ?_⟩
  · intro visinPtr visinLen imgPtr imgLen visoutPtr m a h
    have hlen : (predictFun (readListAt m visinPtr visinLen)
        (readListAt m imgPtr imgLen)).length = visinLen := by
      simp [predictFun, readListAt_length]
    rcases h with h | h
    · exact writeListAt_low _ m visoutPtr a h
    · exact writeListAt_high _ m visoutPtr a (by rw [hlen]; exact h)
  · intro visinPtr visinLen imgPtr imgLen dopsf outPtr sumwtPtr sumwtLen m a h1 h2
    have hswlen : (sumwtFun (readListAt m visinPtr visinLen) sumwtLen).length = sumwtLen := by
      simp [sumwtFun]
    have hilen : (invertFun (readListAt m visinPtr visinLen)
        (readListAt m imgPtr imgLen) dopsf).length = imgLen := by
      simp [invertFun, readListAt_length]
    have step2 : arl_invert_2d visinPtr visinLen imgPtr imgLen dopsf outPtr sumwtPtr
        sumwtLen m a =
        writeListAt m outPtr (invertFun (readListAt m visinPtr visinLen)
          (readListAt m imgPtr imgLen) dopsf) a := by
      rcases h2 with h2 | h2
      · exact writeListAt_low _ _ sumwtPtr a h2
      · exact writeListAt_high _ _ sumwtPtr a (by rw [hswlen]; exact h2)
    rw [step2]
    rcases h1 with h1 | h1
    · exact writeListAt_low _ m outPtr a h1
    · exact writeListAt_high _ m outPtr a (by rw [hilen]; exact h1)

/-- Witness for C10: concrete calls leave a cell outside every output
region unchanged. -/
theorem c10_predict_invert_frame_witness :
    arl_predict_2d 0 2 4 3 10 (fun _ => 9) 8 = 9 ∧
    arl_invert_2d 0 2 4 3 true 10 20 2 (fun _ => 9) 15 = 9 :=
  ⟨c10_predict_invert_frame.2.2.1 0 2 4 3 10 (fun _ => 9) 8 (Or.inl (by decide)),
   c10_predict_invert_frame.2.2.2 0 2 4 3 true 10 20 2 (fun _ => 9) 15
     (Or.inr (by decide)) (Or.inl (by decide))⟩

end ArlWrap

namespace ArlWrap

/-- A block-visibility store: per-sample entries addressed by the slot
positions the correlating index array names (first-match lookup). -/
def toBlock : List (Nat × VisEntryP4) → Nat → Option VisEntryP4
  | [], _ => none
  | (c, e) :: rest, slot => if slot = c then some e else toBlock rest slot

/-- Modelled from the spec: the block-visibility output and the
correlating index array `cindexout` emitted by `arl_predict_function` —
the block form stores the per-sample entry number `i` at the slot
`cindex` maps `i` to. -/
def visToBlock (cindex : List Nat) (entries : List VisEntryP4) :
    Nat → Option VisEntryP4 :=
  toBlock (cindex.zip entries)

/-- Modelled from the spec: the per-sample output of
`arl_convert_visibility_to_blockvisibility`, which rebuilds the
per-sample array by reading each sample's slot of the block form through
the correlating index array `cindexin`. -/
def blockToVis (cindex : List Nat) (block : Nat → Option VisEntryP4) :
    List (Option VisEntryP4) :=
  cindex.map block

/-- Scatter/gather round trip on the underlying lists: when the
correlating index has no repeated slot and covers the samples, gathering
after scattering recovers every entry. -/
theorem blockToVis_visToBlock :
    ∀ (cindex : List Nat) (entries : List VisEntryP4),
      cindex.Nodup → cindex.length = entries.length →
      blockToVis cindex (visToBlock cindex entries) = entries.map some := by
  intro cindex
  induction cindex with
  | nil =>
      intro entries _ hlen
      have : entries = [] := List.eq_nil_of_length_eq_zero hlen.symm
      subst this
      rfl
  | cons c cs ih =>
      intro entries hnd hlen
      cases entries with
      | nil => exact absurd hlen (by simp)
      | cons e es =>
          have hcs : cs.Nodup := hnd.of_cons
          have hcmem : c ∉ cs := by
            have := List.nodup_cons.mp hnd
            exact this.1
          have hlen2 : cs.length = es.length := by
            simpa using hlen
          have hhead : toBlock ((c, e) :: cs.zip es) c = some e := by
            simp [toBlock]
          have htail : cs.map (toBlock ((c, e) :: cs.zip es)) =
              cs.map (toBlock (cs.zip es)) := by
            refine List.map_congr_left ?_
            intro x hx
            have hxc : x ≠ c := fun h => hcmem (h ▸ hx)
            simp [toBlock, hxc]
          calc blockToVis (c :: cs) (visToBlock (c :: cs) (e :: es))
              = toBlock ((c, e) :: cs.zip es) c ::
                  cs.map (toBlock ((c, e) :: cs.zip es)) := by
                simp [blockToVis, visToBlock]
            _ = some e :: cs.map (toBlock (cs.zip es)) := by rw [hhead, htail]
            _ = some e :: blockToVis cs (visToBlock cs es) := rfl
            _ = some e :: es.map some := by rw [ih es hcs hlen2]
            _ = (e :: es).map some := rfl

/-- C6: converting a per-sample visibility set to block form and back via
the modelled conversion functions and a valid correlating index array
(one with no repeated slot and one slot per sample, as a correlating
index between the two representations must be) preserves the sample
count and every per-sample field value: the rebuilt array is exactly the
original entries. -/
theorem c6_block_roundtrip (vis : ARLVisVal VisEntryP4) (cindex : List Nat)
    (hnd : cindex.Nodup) (hlen : cindex.length = vis.data.length) :
    (blockToVis cindex (visToBlock cindex vis.data)).length = vis.data.length ∧
    blockToVis cindex (visToBlock cindex vis.data) = vis.data.map some := by
  have h := blockToVis_visToBlock cindex vis.data hnd hlen
  exact ⟨by rw [h]; simp, h⟩

/-- Witness for C6: a two-sample visibility set with the correlating
index [1, 0] survives the round trip. -/
theorem c6_block_roundtrip_witness :
    (blockToVis [1, 0] (visToBlock [1, 0]
      (⟨2, 4, [⟨[1, 2, 3], 4, 5, 6, 7, 0, 1, [(1, 0)], [1], [1]⟩,
               ⟨[9, 8, 7], 6, 5, 4, 3, 1, 2, [(0, 2)], [2], [2]⟩], "pc"⟩ :
        ARLVisVal VisEntryP4).data)).length = 2 ∧
    blockToVis [1, 0] (visToBlock [1, 0]
      (⟨2, 4, [⟨[1, 2, 3], 4, 5, 6, 7, 0, 1, [(1, 0)], [1], [1]⟩,
               ⟨[9, 8, 7], 6, 5, 4, 3, 1, 2, [(0, 2)], [2], [2]⟩], "pc"⟩ :
        ARLVisVal VisEntryP4).data) =
      ([⟨[1, 2, 3], 4, 5, 6, 7, 0, 1, [(1, 0)], [1], [1]⟩,
        ⟨[9, 8, 7], 6, 5, 4, 3, 1, 2, [(0, 2)], [2], [2]⟩] :
        List VisEntryP4).map some :=
  c6_block_roundtrip
    ⟨2, 4, [⟨[1, 2, 3], 4, 5, 6, 7, 0, 1, [(1, 0)], [1], [1]⟩,
            ⟨[9, 8, 7], 6, 5, 4, 3, 1, 2, [(0, 2)], [2], [2]⟩], "pc"⟩
    [1, 0] (by decide) (by decide)

end ArlWrap
